import Mathlib

/- Shallow embedding of the AssistantBackend turn processor
   (src/AssistantBackend/AssistantBackend/main.py), centred on the
   chat endpoint: its continuation-driven confirmation state machine,
   the tool-call detector, the context assembler and the vector-memory
   operations.  External collaborators (language model, summarizer,
   embedding model, vector-store query, web-search providers, wall
   clock, persona and profile files) are supplied through an oracle
   environment `Env` recording the outcome each of them would produce
   during the turn.  `Except Unit` models a Python exception
   propagating out of the endpoint. -/

/- Chat messages: Python dicts with a role and a content string
   (pydantic model ChatMessage, main.py line 108). -/
structure Msg where
  role : String
  content : String
deriving Repr, DecidableEq

/- One record of the chroma vector collection: documents are inserted
   with an id, the raw text and an embedding vector (main.py line 155).
   Embedding vectors are opaque data here, modelled as integer lists. -/
structure MemRecord where
  id : String
  text : String
  embedding : List Int
deriving Repr, DecidableEq

/- The vector memory store, in insertion order. -/
abbrev MemStore := List MemRecord

/- The request continuation is a JSON dict (Dict[str, Any]); the
   endpoint reads the keys "action", "query" and "summary" with .get,
   which yields None when the key is absent (main.py lines 165-171).
   An absent or empty dict is modelled as `none` at the request level
   (Python: `if request.continuation` is false for None and for an
   empty dict, both of which skip the continuation branch). -/
structure Continuation where
  action : Option String := none
  query : Option String := none
  summary : Option String := none
deriving Repr, DecidableEq

/- SettingsModel (main.py line 109): provider defaults to "brave" and
   webSearchEnabled defaults to true. -/
structure SettingsModel where
  provider : String := "brave"
  webSearchEnabled : Bool := true
deriving Repr, DecidableEq

/- ChatRequest (main.py lines 112-116). -/
structure ChatRequest where
  history : List Msg
  continuation : Option Continuation := none
  settings : Option SettingsModel := none
  persona_id : Option String := some "assistant"
deriving Repr, DecidableEq

/- A persona entry of personas.json as read by the endpoint: only the
   id and the personality/prompt texts are consulted by chat_endpoint
   (main.py lines 176-177); absent keys are `none`. -/
structure Persona where
  id : String
  personality : Option String := none
  prompt : Option String := none
deriving Repr, DecidableEq

/- The profile.json content as read by the endpoint (main.py lines
   179-180); .get defaults are applied at the use site. -/
structure Profile where
  name : Option String := none
  key_facts : Option (List String) := none
  main_goals : Option (List String) := none
deriving Repr, DecidableEq

/- JSON values as produced by json.loads.  Numeric literals keep their
   source text: no claim inspects numeric values.  Object fields keep
   their textual order; duplicate keys resolve to the last binding,
   as a Python dict built by json.loads does. -/
inductive Json where
  | null
  | bool (b : Bool)
  | num (s : String)
  | str (s : String)
  | arr (xs : List Json)
  | obj (fields : List (String × Json))

/- The confirmation signal of the response: the dict
   `{"type": "search", "query": ...}` (query is the "query" field of
   the parsed tool call, any JSON value or absent) or
   `{"type": "memory", "summary": ...}` (main.py lines 196, 201). -/
inductive Confirmation where
  | search (query : Option Json)
  | memory (summary : String)

/- The JSON body returned by the endpoint: a history and an optional
   confirmation (absent for the early save/dont-save returns). -/
structure ChatResponse where
  history : List Msg
  confirmation : Option Confirmation

/- Oracle environment: one turn's worth of outcomes of every external
   collaborator.  `Except.error ()` marks a call that raises. -/
structure Env where
  llmResponse : Except Unit String
  summaryResponse : Except Unit String
  braveResults : Option String → String
  ddgsResults : Option String → String
  queryOutcome : Except Unit (List String)
  nowTimestamp : String
  nowFormatted : String
  embed : String → List Int
  personas : List Persona
  profile : Profile

/- Full observable outcome of one endpoint invocation: the HTTP
   response body, the memory store afterwards, the queries for which
   the web_search helper ran, and how many primary-completion and
   summarization calls were issued. -/
structure TurnOutput where
  response : ChatResponse
  store : MemStore
  searches : List (Option String)
  llmCalls : Nat
  summaryCalls : Nat

/- Outcome of the code before the try block: either an early return
   (the save_memory / dont_save_memory branches) or the history that
   is fed to the primary completion call. -/
inductive PreOut where
  | early (resp : ChatResponse)
  | proceed (history : List Msg)

/- String helpers over character lists (Lean's own String.toLower and
   String.trim are avoided because they do not reduce well in the
   kernel; these mirror the Python operations on ASCII data). -/

def lowerChars (cs : List Char) : List Char := cs.map Char.toLower

/- Python str.lower (ASCII range). -/
def pyLower (s : String) : String := String.mk (lowerChars s.data)

def startsWithChars : List Char → List Char → Bool
  | [], _ => true
  | _ :: _, [] => false
  | p :: ps, c :: cs => p == c && startsWithChars ps cs

def infixChars (pat : List Char) : List Char → Bool
  | [] => pat.isEmpty
  | c :: cs => startsWithChars pat (c :: cs) || infixChars pat cs

/- Python substring membership: `pat in s`. -/
def pyIn (pat s : String) : Bool := infixChars pat.data s.data

def isPyWs (c : Char) : Bool :=
  c == ' ' || c == Char.ofNat 9 || c == Char.ofNat 10 || c == Char.ofNat 13 ||
  c == Char.ofNat 11 || c == Char.ofNat 12

/- Python str.strip() with the default whitespace set. -/
def pyStrip (s : String) : String :=
  String.mk (((s.data.dropWhile isPyWs).reverse.dropWhile isPyWs).reverse)

/- Python sep.join(xs). -/
def joinSep (sep : String) : List String → String
  | [] => ""
  | [x] => x
  | x :: xs => x ++ sep ++ joinSep sep xs

def lbrace : Char := Char.ofNat 123

def rbrace : Char := Char.ofNat 125

/- The json module of the Python standard library, restricted to what
   json.loads needs on textual input: values are objects, arrays,
   strings with escapes, numeric literals, true, false, null, and the
   constants NaN, Infinity and -Infinity that json.loads accepts by
   default (Python turns them into floats; here they stay num atoms
   carrying their source text, like every numeric literal).  Fuel
   bounds the recursion; the top-level wrapper passes one unit of fuel
   per input character, which is ample since every recursive call
   consumes at least one character. -/

def jsonWsChar (c : Char) : Bool :=
  c == ' ' || c == Char.ofNat 9 || c == Char.ofNat 10 || c == Char.ofNat 13

def jsonWs (cs : List Char) : List Char := cs.dropWhile jsonWsChar

def hexVal (c : Char) : Option Nat :=
  if '0' ≤ c ∧ c ≤ '9' then some (c.toNat - '0'.toNat)
  else if 'a' ≤ c ∧ c ≤ 'f' then some (c.toNat - 'a'.toNat + 10)
  else if 'A' ≤ c ∧ c ≤ 'F' then some (c.toNat - 'A'.toNat + 10)
  else none

def escChar : Char → Option Char
  | '"' => some '"'
  | '\\' => some '\\'
  | '/' => some '/'
  | 'b' => some (Char.ofNat 8)
  | 'f' => some (Char.ofNat 12)
  | 'n' => some (Char.ofNat 10)
  | 'r' => some (Char.ofNat 13)
  | 't' => some (Char.ofNat 9)
  | _ => none

/- Parses the remainder of a JSON string literal, the opening quote
   already consumed; returns the decoded characters and the rest of
   the input.  Unescaped control characters are rejected, as json.loads
   does in strict mode.  A \uXXXX escape decodes through Char.ofNat
   (surrogate pairs are not combined; no claim exercises them). -/
def parseStringRest : List Char → Option (List Char × List Char)
  | [] => none
  | '"' :: rest => some ([], rest)
  | '\\' :: 'u' :: h1 :: h2 :: h3 :: h4 :: rest =>
    match hexVal h1, hexVal h2, hexVal h3, hexVal h4 with
    | some a, some b, some c, some d =>
      match parseStringRest rest with
      | some (cs, rem) => some (Char.ofNat (((a * 16 + b) * 16 + c) * 16 + d) :: cs, rem)
      | none => none
    | _, _, _, _ => none
  | '\\' :: e :: rest =>
    match escChar e with
    | some dec =>
      match parseStringRest rest with
      | some (cs, rem) => some (dec :: cs, rem)
      | none => none
    | none => none
  | '\\' :: [] => none
  | c :: rest =>
    if c.toNat < 32 then none
    else
      match parseStringRest rest with
      | some (cs, rem) => some (c :: cs, rem)
      | none => none

/- Integer part of a JSON number: 0, or a nonzero digit followed by
   digits (json rejects leading zeros). -/
def parseIntPart : List Char → Option (List Char × List Char)
  | [] => none
  | c :: rest =>
    if c == '0' then some (['0'], rest)
    else if c.isDigit then
      some (c :: rest.takeWhile Char.isDigit, rest.dropWhile Char.isDigit)
    else none

def parseFracPart (cs : List Char) : Option (List Char × List Char) :=
  match cs with
  | '.' :: rest =>
    let ds := rest.takeWhile Char.isDigit
    if ds.isEmpty then none else some ('.' :: ds, rest.dropWhile Char.isDigit)
  | _ => some ([], cs)

def parseExpPart (cs : List Char) : Option (List Char × List Char) :=
  match cs with
  | c :: rest =>
    if c == 'e' || c == 'E' then
      match rest with
      | s :: rest2 =>
        if s == '+' || s == '-' then
          let ds := rest2.takeWhile Char.isDigit
          if ds.isEmpty then none
          else some (c :: s :: ds, rest2.dropWhile Char.isDigit)
        else
          let ds := rest.takeWhile Char.isDigit
          if ds.isEmpty then none
          else some (c :: ds, rest.dropWhile Char.isDigit)
      | [] => none
    else some ([], cs)
  | [] => some ([], [])

def parseNumber (cs : List Char) : Option (List Char × List Char) :=
  let sign := if cs.head? == some '-' then ['-'] else []
  let cs1 := if cs.head? == some '-' then cs.tail else cs
  match parseIntPart cs1 with
  | none => none
  | some (ip, cs2) =>
    match parseFracPart cs2 with
    | none => none
    | some (fp, cs3) =>
      match parseExpPart cs3 with
      | none => none
      | some (ep, cs4) => some (sign ++ ip ++ fp ++ ep, cs4)

mutual

def parseValue : Nat → List Char → Option (Json × List Char)
  | 0, _ => none
  | fuel + 1, cs =>
    match cs with
    | [] => none
    | c :: rest =>
      if c = lbrace then
        let rest2 := jsonWs rest
        match rest2 with
        | c2 :: rem =>
          if c2 = rbrace then some (Json.obj [], rem)
          else
            match parseMembers fuel rest2 with
            | some (fields, rem2) => some (Json.obj fields, rem2)
            | none => none
        | [] => none
      else if c = '[' then
        let rest2 := jsonWs rest
        match rest2 with
        | ']' :: rem => some (Json.arr [], rem)
        | _ =>
          match parseElems fuel rest2 with
          | some (xs, rem2) => some (Json.arr xs, rem2)
          | none => none
      else if c = '"' then
        match parseStringRest rest with
        | some (chars, rem) => some (Json.str (String.mk chars), rem)
        | none => none
      else
        match cs with
        | 't' :: 'r' :: 'u' :: 'e' :: rem => some (Json.bool true, rem)
        | 'f' :: 'a' :: 'l' :: 's' :: 'e' :: rem => some (Json.bool false, rem)
        | 'n' :: 'u' :: 'l' :: 'l' :: rem => some (Json.null, rem)
        | 'N' :: 'a' :: 'N' :: rem => some (Json.num "NaN", rem)
        | 'I' :: 'n' :: 'f' :: 'i' :: 'n' :: 'i' :: 't' :: 'y' :: rem =>
          some (Json.num "Infinity", rem)
        | '-' :: 'I' :: 'n' :: 'f' :: 'i' :: 'n' :: 'i' :: 't' :: 'y' :: rem =>
          some (Json.num "-Infinity", rem)
        | _ =>
          match parseNumber cs with
          | some (tok, rem) => some (Json.num (String.mk tok), rem)
          | none => none

def parseMembers : Nat → List Char → Option (List (String × Json) × List Char)
  | 0, _ => none
  | fuel + 1, cs =>
    match cs with
    | '"' :: rest =>
      match parseStringRest rest with
      | none => none
      | some (kcs, rem1) =>
        match jsonWs rem1 with
        | ':' :: rem3 =>
          match parseValue fuel (jsonWs rem3) with
          | none => none
          | some (v, rem4) =>
            match jsonWs rem4 with
            | c5 :: rem6 =>
              if c5 = ',' then
                match parseMembers fuel (jsonWs rem6) with
                | none => none
                | some (fields, rem7) => some ((String.mk kcs, v) :: fields, rem7)
              else if c5 = rbrace then some ([(String.mk kcs, v)], rem6)
              else none
            | [] => none
        | _ => none
    | _ => none

def parseElems : Nat → List Char → Option (List Json × List Char)
  | 0, _ => none
  | fuel + 1, cs =>
    match parseValue fuel cs with
    | none => none
    | some (v, rem) =>
      match jsonWs rem with
      | ',' :: rem3 =>
        match parseElems fuel (jsonWs rem3) with
        | none => none
        | some (xs, rem4) => some (v :: xs, rem4)
      | ']' :: rem3 => some ([v], rem3)
      | _ => none

end

/- json.loads: parse one value, allowing surrounding whitespace and
   rejecting trailing input. -/
def json_loads (s : String) : Option Json :=
  match parseValue (s.length + 1) (jsonWs s.data) with
  | some (v, rem) => if jsonWs rem = [] then some v else none
  | none => none

/- Lookup in a parsed object, the last binding of a duplicated key
   winning, as in the dict json.loads builds. -/
def getLastField : List (String × Json) → String → Option Json
  | [], _ => none
  | (k, v) :: rest, key =>
    match getLastField rest key with
    | some r => some r
    | none => if k = key then some v else none

/- Python dict .get on a parsed JSON value (None on a non-object). -/
def Json.getField : Json → String → Option Json
  | Json.obj fields, key => getLastField fields key
  | _, _ => none

/- The regex search re.search(r'\x7b.*\x7d', text, re.DOTALL): with a
   greedy dot-matches-all body this matches from the first opening
   brace to the last closing brace that follows it, or fails. -/
def extractBraces (s : String) : Option String :=
  let cs := s.data
  match cs.findIdx? (· = lbrace) with
  | none => none
  | some i =>
    match cs.reverse.findIdx? (· = rbrace) with
    | none => none
    | some jr =>
      let j := cs.length - 1 - jr
      if i < j then some (String.mk ((cs.drop i).take (j - i + 1))) else none

/- Tool-call detection on a completion text (main.py lines 192-197):
   extract the brace-delimited substring, json.loads it (a parse error
   is swallowed), and when the tool_name field is the string
   "web_search" report the query field.  Returns the confirmation
   query payload when a tool call is recognised. -/
def detectToolCall (response_text : String) : Option (Option Json) :=
  match extractBraces response_text with
  | none => none
  | some sub =>
    match json_loads sub with
    | none => none
    | some j =>
      match j.getField "tool_name" with
      | some (Json.str s) => if s = "web_search" then some (j.getField "query") else none
      | _ => none

/- Persona text selection (main.py line 177):
   persona_data.get('personality') or persona_data.get('prompt', ''). -/
def personaText (p : Persona) : String :=
  match p.personality with
  | some s => if s = "" then (p.prompt.getD "") else s
  | none => p.prompt.getD ""

/- Persona lookup (main.py line 176): first persona whose id equals
   the requested id, else personas[0]; an empty persona list raises
   IndexError while evaluating the default argument. -/
def lookupPersona (personas : List Persona) (pid : Option String) : Except Unit Persona :=
  match personas.find? (fun p => pid == some p.id) with
  | some p => Except.ok p
  | none =>
    match personas with
    | [] => Except.error ()
    | p :: _ => Except.ok p

/- The profile block (main.py line 180). -/
def profileStr (pr : Profile) : String :=
  "--- CORE MEMORY: USER PROFILE ---\nName: " ++ pr.name.getD "N/A" ++
  "\nKey Facts: " ++ joinSep "; " (pr.key_facts.getD []) ++
  "\nGoals: " ++ joinSep "; " (pr.main_goals.getD []) ++
  "\n--- END USER PROFILE ---"

/- The per-turn system prompt (main.py line 183). -/
def assembleContext (persona profile_str nowFmt memories : String) : String :=
  persona ++ "\n\n" ++ profile_str ++ "\n\nCurrent date and time: " ++ nowFmt ++
  ".\n\n" ++ memories

/- history[0]['content'] = assembled (main.py line 183): rewrite the
   content of slot 0, keeping its role. -/
def setSlot0 (h : List Msg) (content : String) : List Msg :=
  match h with
  | [] => []
  | m :: rest => { m with content := content } :: rest

/- Memory retrieval (main.py lines 123-128): empty collection yields
   the empty string without querying; a raising query propagates; a
   query whose results are falsy or hold no documents yields the empty
   string; otherwise the documents are wrapped in the memory block.
   The oracle's queryOutcome is the documents[0] list, the falsy
   result cases collapsing to the empty list. -/
def get_relevant_memories (prompt : String) (store : MemStore) (env : Env) :
    Except Unit String :=
  if store.length = 0 then Except.ok ""
  else
    match env.queryOutcome with
    | Except.error _ => Except.error ()
    | Except.ok docs =>
      if docs.isEmpty then Except.ok ""
      else
        Except.ok ("--- PAST MEMORIES ---\n" ++ joinSep "\n" docs ++
          "\n--- END MEMORIES ---")

/- web_search (main.py lines 130-145): dispatch on the provider; both
   providers return whatever text the external service produced (all
   exceptions are converted to a descriptive failure string inside the
   helper, so the helper itself never raises); an unknown provider
   returns a fixed message. -/
def web_search (q : Option String) (provider : String) (env : Env) : String :=
  if provider = "brave" then env.braveResults q
  else if provider = "ddgs" then env.ddgsResults q
  else "Invalid search provider specified."

/- get_interaction_summary (main.py lines 147-150): one summarization
   call to the model. -/
def get_interaction_summary (env : Env) : Except Unit String :=
  env.summaryResponse

/- save_memory (main.py lines 152-156).  The endpoint passes
   continuation.get("summary"), which is None when the key is absent;
   None.strip() then raises AttributeError, modelled as the error
   case.  A blank summary or one whose lower-cased text contains
   "no new key information" is discarded; otherwise the summary is
   embedded and added to the collection under the current timestamp. -/
def save_memory (interaction_summary : Option String) (store : MemStore) (env : Env) :
    Except Unit MemStore :=
  match interaction_summary with
  | none => Except.error ()
  | some s =>
    if pyStrip s = "" ∨ pyIn "no new key information" (pyLower s) = true then
      Except.ok store
    else
      Except.ok (store ++ [⟨env.nowTimestamp, s, env.embed s⟩])

def defaultSettings : SettingsModel := {}

def reqSettings (req : ChatRequest) : SettingsModel := req.settings.getD defaultSettings

def apologyMsg : Msg := ⟨"assistant", "Sorry, I encountered an error."⟩

def deniedSearchText : String :=
  "The user has denied the web search. Please answer the previous question using only your existing knowledge."

def searchResultsPre : String := "Here are the search results:\n\n"

def searchResultsPost : String :=
  "\n\nPlease use these results to answer my original question."

/- The continuation branch of chat_endpoint (main.py lines 164-172). -/
def contStep (cont : Continuation) (history : List Msg) (settings : SettingsModel)
    (store : MemStore) (env : Env) :
    Except Unit (PreOut × MemStore × List (Option String)) :=
  if cont.action = some "approved_search" then
    let search_results := web_search cont.query settings.provider env
    Except.ok (PreOut.proceed (history ++
      [⟨"tool", searchResultsPre ++ search_results ++ searchResultsPost⟩]),
      store, [cont.query])
  else if cont.action = some "denied_search" then
    Except.ok (PreOut.proceed (history ++ [⟨"user", deniedSearchText⟩]), store, [])
  else if cont.action = some "save_memory" then
    match save_memory cont.summary store env with
    | Except.error _ => Except.error ()
    | Except.ok store2 => Except.ok (PreOut.early ⟨history, none⟩, store2, [])
  else if cont.action = some "dont_save_memory" then
    Except.ok (PreOut.early ⟨history, none⟩, store, [])
  else Except.ok (PreOut.proceed history, store, [])

/- The fresh-turn branch of chat_endpoint (main.py lines 173-183):
   history[-1] raises on an empty history; the persona is looked up;
   the profile block, the time context and the retrieved memories are
   assembled into message slot 0. -/
def freshStep (req : ChatRequest) (store : MemStore) (env : Env) :
    Except Unit (PreOut × MemStore × List (Option String)) :=
  match req.history.getLast? with
  | none => Except.error ()
  | some lastMsg =>
    match lookupPersona env.personas req.persona_id with
    | Except.error _ => Except.error ()
    | Except.ok persona_data =>
      match get_relevant_memories lastMsg.content store env with
      | Except.error _ => Except.error ()
      | Except.ok relevant_memories =>
        Except.ok (PreOut.proceed (setSlot0 req.history
          (assembleContext (personaText persona_data) (profileStr env.profile)
            env.nowFormatted relevant_memories)), store, [])

/- Everything of chat_endpoint before the try block. -/
def preTry (req : ChatRequest) (store : MemStore) (env : Env) :
    Except Unit (PreOut × MemStore × List (Option String)) :=
  match req.continuation with
  | some cont => contStep cont req.history (reqSettings req) store env
  | none => freshStep req store env

/- The try block of chat_endpoint (main.py lines 185-206): the primary
   completion is attempted; on success its text is appended as an
   assistant message and, when web search is enabled, scanned for a
   tool call; without a search confirmation the summarizer runs and a
   non-blank summary not containing "no new key information" becomes a
   memory confirmation.  Any exception inside the block (a raising
   completion or summarization call) is caught and answered with the
   apologetic assistant message.  Returns the response paired with the
   number of summarization calls issued. -/
/- The confirmation the detector assigns after the completion text is
   appended (main.py lines 190-197): detection only runs when web
   search is enabled in the settings. -/
def searchConf (settings : SettingsModel) (response_text : String) : Option Confirmation :=
  if settings.webSearchEnabled then
    match detectToolCall response_text with
    | some q => some (Confirmation.search q)
    | none => none
  else none

def tryBlock (history : List Msg) (settings : SettingsModel) (env : Env) :
    ChatResponse × Nat :=
  match env.llmResponse with
  | Except.error _ => (⟨history ++ [apologyMsg], none⟩, 0)
  | Except.ok response_text =>
    match searchConf settings response_text with
    | some c => (⟨history ++ [⟨"assistant", response_text⟩], some c⟩, 0)
    | none =>
      match get_interaction_summary env with
      | Except.error _ =>
        (⟨history ++ [⟨"assistant", response_text⟩] ++ [apologyMsg], none⟩, 1)
      | Except.ok summary =>
        if summary ≠ "" ∧ pyIn "no new key information" (pyLower summary) = false then
          (⟨history ++ [⟨"assistant", response_text⟩],
            some (Confirmation.memory summary)⟩, 1)
        else (⟨history ++ [⟨"assistant", response_text⟩], none⟩, 1)

/- chat_endpoint (main.py lines 159-206). -/
def chat_endpoint (req : ChatRequest) (store : MemStore) (env : Env) :
    Except Unit TurnOutput :=
  match preTry req store env with
  | Except.error _ => Except.error ()
  | Except.ok (PreOut.early resp, store2, searches) =>
    Except.ok ⟨resp, store2, searches, 0, 0⟩
  | Except.ok (PreOut.proceed h, store2, searches) =>
    let result := tryBlock h (reqSettings req) env
    Except.ok ⟨result.1, store2, searches, 1, result.2⟩

/- Concrete fixtures used to instantiate the claim theorems. -/

def okOr (e : Except Unit TurnOutput) (d : TurnOutput) : TurnOutput :=
  match e with
  | Except.ok o => o
  | Except.error _ => d

def isOkE : Except Unit TurnOutput → Bool
  | Except.ok _ => true
  | Except.error _ => false

def fallbackOut : TurnOutput := ⟨⟨[], none⟩, [], [], 0, 0⟩

def sampleEnv : Env := {
  llmResponse := Except.ok "Hello there"
  summaryResponse := Except.ok "User likes tea"
  braveResults := fun _ => "BRAVERES"
  ddgsResults := fun _ => "DDGSRES"
  queryOutcome := Except.ok []
  nowTimestamp := "111.222"
  nowFormatted := "Monday"
  embed := fun _ => [7]
  personas := [⟨"assistant", some "PERSONA", none⟩]
  profile := ⟨some "U", some ["f1", "f2"], some ["g"]⟩ }

def msgSys : Msg := ⟨"system", "orig"⟩

def reqFresh : ChatRequest := { history := [msgSys, ⟨"user", "hi"⟩] }

def outFresh : TurnOutput := okOr (chat_endpoint reqFresh [] sampleEnv) fallbackOut

def toolText : String := "\x7b\"tool_name\": \"web_search\", \"query\": \"X\"\x7d"

def toolJson : Json :=
  Json.obj [("tool_name", Json.str "web_search"), ("query", Json.str "X")]

def envTool : Env := { sampleEnv with llmResponse := Except.ok toolText }

def outTool : TurnOutput := okOr (chat_endpoint reqFresh [] envTool) fallbackOut

def toolTextNaN : String := "\x7b\"tool_name\": \"web_search\", \"query\": NaN\x7d"

def toolJsonNaN : Json :=
  Json.obj [("tool_name", Json.str "web_search"), ("query", Json.num "NaN")]

def envToolNaN : Env := { sampleEnv with llmResponse := Except.ok toolTextNaN }

def outToolNaN : TurnOutput := okOr (chat_endpoint reqFresh [] envToolNaN) fallbackOut

/- The pre-completion history of a fresh sampleEnv turn on the empty
   store: slot 0 is rewritten with the assembled context. -/
def histFresh : List Msg :=
  setSlot0 reqFresh.history
    (assembleContext "PERSONA" (profileStr sampleEnv.profile) "Monday" "")

def reqNoWS : ChatRequest := {
  history := [msgSys, ⟨"user", "hi"⟩]
  settings := some ⟨"brave", false⟩ }

def envToolNoMem : Env := { envTool with
  summaryResponse := Except.ok "No new key information" }

def contApproved : Continuation := { action := some "approved_search", query := some "Q1" }

def reqApproved : ChatRequest := {
  history := [msgSys, ⟨"user", "q"⟩]
  continuation := some contApproved }

def outApproved : TurnOutput := okOr (chat_endpoint reqApproved [] sampleEnv) fallbackOut

def contDenied : Continuation := { action := some "denied_search" }

def reqDenied : ChatRequest := {
  history := [msgSys, ⟨"user", "q"⟩]
  continuation := some contDenied }

def outDenied : TurnOutput := okOr (chat_endpoint reqDenied [] sampleEnv) fallbackOut

def envNoInfo : Env := { sampleEnv with
  summaryResponse := Except.ok "No new key information." }

def outNoInfo : TurnOutput := okOr (chat_endpoint reqFresh [] envNoInfo) fallbackOut

def contSave : Continuation := { action := some "save_memory", summary := some "A fact" }

def reqSave : ChatRequest := { history := [msgSys], continuation := some contSave }

def outSave : TurnOutput := okOr (chat_endpoint reqSave [] sampleEnv) fallbackOut

def storeOne : MemStore := [⟨"1", "m", [1]⟩]

def envQueryFail : Env := { sampleEnv with queryOutcome := Except.error () }

def envLlmFail : Env := { sampleEnv with llmResponse := Except.error () }

def contDont : Continuation := { action := some "dont_save_memory" }

def reqDont : ChatRequest := { history := [msgSys], continuation := some contDont }

def contSaveNoSummary : Continuation := { action := some "save_memory" }

def reqSaveNoSummary : ChatRequest := {
  history := [msgSys]
  continuation := some contSaveNoSummary }

/- Equation lemmas for the branches of the embedded endpoint, shared
   by the claim theorems. -/

theorem tryBlock_llm_error (h : List Msg) (settings : SettingsModel) (env : Env)
    (hl : env.llmResponse = Except.error ()) :
    tryBlock h settings env = (⟨h ++ [apologyMsg], none⟩, 0) := by
  simp [tryBlock, hl]

theorem tryBlock_search (h : List Msg) (settings : SettingsModel) (env : Env)
    (t : String) (c : Confirmation)
    (hl : env.llmResponse = Except.ok t) (hc : searchConf settings t = some c) :
    tryBlock h settings env = (⟨h ++ [⟨"assistant", t⟩], some c⟩, 0) := by
  simp [tryBlock, hl, hc]

theorem tryBlock_sum_error (h : List Msg) (settings : SettingsModel) (env : Env)
    (t : String)
    (hl : env.llmResponse = Except.ok t) (hc : searchConf settings t = none)
    (hs : env.summaryResponse = Except.error ()) :
    tryBlock h settings env =
      (⟨h ++ [⟨"assistant", t⟩] ++ [apologyMsg], none⟩, 1) := by
  simp [tryBlock, get_interaction_summary, hl, hc, hs]

theorem tryBlock_memory (h : List Msg) (settings : SettingsModel) (env : Env)
    (t s : String)
    (hl : env.llmResponse = Except.ok t) (hc : searchConf settings t = none)
    (hs : env.summaryResponse = Except.ok s)
    (hgood : s ≠ "" ∧ pyIn "no new key information" (pyLower s) = false) :
    tryBlock h settings env =
      (⟨h ++ [⟨"assistant", t⟩], some (Confirmation.memory s)⟩, 1) := by
  simp only [tryBlock, get_interaction_summary, hl, hc, hs]
  rw [if_pos hgood]

theorem tryBlock_no_memory (h : List Msg) (settings : SettingsModel) (env : Env)
    (t s : String)
    (hl : env.llmResponse = Except.ok t) (hc : searchConf settings t = none)
    (hs : env.summaryResponse = Except.ok s)
    (hbad : ¬(s ≠ "" ∧ pyIn "no new key information" (pyLower s) = false)) :
    tryBlock h settings env = (⟨h ++ [⟨"assistant", t⟩], none⟩, 1) := by
  simp only [tryBlock, get_interaction_summary, hl, hc, hs]
  rw [if_neg hbad]

/- Whatever the model and summarizer oracles do, the try block only
   ever appends assistant-role messages to the history it was given. -/
theorem tryBlock_appended (h : List Msg) (settings : SettingsModel) (env : Env) :
    ∃ tail, (tryBlock h settings env).1.history = h ++ tail ∧
      ∀ m ∈ tail, m.role = "assistant" := by
  cases hl : env.llmResponse with
  | error e =>
    refine ⟨[apologyMsg], by rw [tryBlock_llm_error h settings env hl], ?_⟩
    intro m hm
    simp only [List.mem_singleton] at hm
    subst hm
    rfl
  | ok t =>
    cases hc : searchConf settings t with
    | some c =>
      refine ⟨[⟨"assistant", t⟩], by rw [tryBlock_search h settings env t c hl hc], ?_⟩
      intro m hm
      simp only [List.mem_singleton] at hm
      subst hm
      rfl
    | none =>
      cases hs : env.summaryResponse with
      | error e =>
        refine ⟨[⟨"assistant", t⟩, apologyMsg], ?_, ?_⟩
        · rw [tryBlock_sum_error h settings env t hl hc hs]
          simp
        · intro m hm
          simp only [List.mem_cons, List.mem_singleton, List.not_mem_nil, or_false] at hm
          rcases hm with rfl | rfl
          · rfl
          · rfl
      | ok s =>
        by_cases hg : s ≠ "" ∧ pyIn "no new key information" (pyLower s) = false
        · refine ⟨[⟨"assistant", t⟩],
            by rw [tryBlock_memory h settings env t s hl hc hs hg], ?_⟩
          intro m hm
          simp only [List.mem_singleton] at hm
          subst hm
          rfl
        · refine ⟨[⟨"assistant", t⟩],
            by rw [tryBlock_no_memory h settings env t s hl hc hs hg], ?_⟩
          intro m hm
          simp only [List.mem_singleton] at hm
          subst hm
          rfl

theorem preTry_approved (req : ChatRequest) (store : MemStore) (env : Env)
    (c : Continuation)
    (hc : req.continuation = some c) (ha : c.action = some "approved_search") :
    preTry req store env = Except.ok (PreOut.proceed (req.history ++
      [⟨"tool", searchResultsPre ++ web_search c.query (reqSettings req).provider env ++
        searchResultsPost⟩]), store, [c.query]) := by
  simp [preTry, hc, contStep, ha]

theorem preTry_denied (req : ChatRequest) (store : MemStore) (env : Env)
    (c : Continuation)
    (hc : req.continuation = some c) (ha : c.action = some "denied_search") :
    preTry req store env = Except.ok (PreOut.proceed (req.history ++
      [⟨"user", deniedSearchText⟩]), store, []) := by
  simp [preTry, hc, contStep, ha]

theorem preTry_save (req : ChatRequest) (store : MemStore) (env : Env)
    (c : Continuation) (store2 : MemStore)
    (hc : req.continuation = some c) (ha : c.action = some "save_memory")
    (hs : save_memory c.summary store env = Except.ok store2) :
    preTry req store env = Except.ok (PreOut.early ⟨req.history, none⟩, store2, []) := by
  simp [preTry, hc, contStep, ha, hs]

theorem preTry_dont_save (req : ChatRequest) (store : MemStore) (env : Env)
    (c : Continuation)
    (hc : req.continuation = some c) (ha : c.action = some "dont_save_memory") :
    preTry req store env = Except.ok (PreOut.early ⟨req.history, none⟩, store, []) := by
  simp [preTry, hc, contStep, ha]

theorem preTry_fresh (req : ChatRequest) (store : MemStore) (env : Env)
    (lastMsg : Msg) (persona_data : Persona) (relevant_memories : String)
    (hc : req.continuation = none)
    (hlast : req.history.getLast? = some lastMsg)
    (hper : lookupPersona env.personas req.persona_id = Except.ok persona_data)
    (hmem : get_relevant_memories lastMsg.content store env = Except.ok relevant_memories) :
    preTry req store env = Except.ok (PreOut.proceed (setSlot0 req.history
      (assembleContext (personaText persona_data) (profileStr env.profile)
        env.nowFormatted relevant_memories)), store, []) := by
  simp [preTry, hc, freshStep, hlast, hper, hmem]

theorem chat_endpoint_early (req : ChatRequest) (store : MemStore) (env : Env)
    (resp : ChatResponse) (st : MemStore) (sr : List (Option String))
    (hp : preTry req store env = Except.ok (PreOut.early resp, st, sr)) :
    chat_endpoint req store env = Except.ok ⟨resp, st, sr, 0, 0⟩ := by
  simp [chat_endpoint, hp]

theorem chat_endpoint_proceed (req : ChatRequest) (store : MemStore) (env : Env)
    (h : List Msg) (st : MemStore) (sr : List (Option String))
    (hp : preTry req store env = Except.ok (PreOut.proceed h, st, sr)) :
    chat_endpoint req store env = Except.ok
      ⟨(tryBlock h (reqSettings req) env).1, st, sr, 1,
        (tryBlock h (reqSettings req) env).2⟩ := by
  simp [chat_endpoint, hp]

/- The code before the try block performs a web search only on an
   approved_search continuation, changes the store only on a
   save_memory continuation, and on a fresh turn does neither. -/
theorem preTry_frame (req : ChatRequest) (store : MemStore) (env : Env)
    (po : PreOut) (st : MemStore) (sr : List (Option String))
    (hp : preTry req store env = Except.ok (po, st, sr)) :
    (sr = [] ∨ ∃ c, req.continuation = some c ∧ c.action = some "approved_search") ∧
    (st = store ∨ ∃ c, req.continuation = some c ∧ c.action = some "save_memory") ∧
    (req.continuation = none → sr = [] ∧ st = store) := by
  cases hc : req.continuation with
  | none =>
    simp only [preTry, hc, freshStep] at hp
    split at hp
    · exact Except.noConfusion hp
    · split at hp
      · exact Except.noConfusion hp
      · split at hp
        · exact Except.noConfusion hp
        · simp only [Except.ok.injEq, Prod.mk.injEq] at hp
          obtain ⟨-, h2, h3⟩ := hp
          exact ⟨Or.inl h3.symm, Or.inl h2.symm, fun _ => ⟨h3.symm, h2.symm⟩⟩
  | some c =>
    simp only [preTry, hc, contStep] at hp
    split at hp
    · rename_i hact
      simp only [Except.ok.injEq, Prod.mk.injEq] at hp
      obtain ⟨-, h2, h3⟩ := hp
      exact ⟨Or.inr ⟨c, rfl, hact⟩, Or.inl h2.symm, fun hn => Option.noConfusion hn⟩
    · split at hp
      · simp only [Except.ok.injEq, Prod.mk.injEq] at hp
        obtain ⟨-, h2, h3⟩ := hp
        exact ⟨Or.inl h3.symm, Or.inl h2.symm, fun hn => Option.noConfusion hn⟩
      · split at hp
        · rename_i hact
          split at hp
          · exact Except.noConfusion hp
          · simp only [Except.ok.injEq, Prod.mk.injEq] at hp
            obtain ⟨-, h2, h3⟩ := hp
            exact ⟨Or.inl h3.symm, Or.inr ⟨c, rfl, hact⟩, fun hn => Option.noConfusion hn⟩
        · split at hp
          · simp only [Except.ok.injEq, Prod.mk.injEq] at hp
            obtain ⟨-, h2, h3⟩ := hp
            exact ⟨Or.inl h3.symm, Or.inl h2.symm, fun hn => Option.noConfusion hn⟩
          · simp only [Except.ok.injEq, Prod.mk.injEq] at hp
            obtain ⟨-, h2, h3⟩ := hp
            exact ⟨Or.inl h3.symm, Or.inl h2.symm, fun hn => Option.noConfusion hn⟩

/- The endpoint's store and search effects coincide with those of the
   code before the try block: the try block touches neither. -/
theorem chat_endpoint_effects (req : ChatRequest) (store : MemStore) (env : Env)
    (out : TurnOutput) (hout : chat_endpoint req store env = Except.ok out) :
    ∃ po, preTry req store env = Except.ok (po, out.store, out.searches) := by
  unfold chat_endpoint at hout
  split at hout
  · exact Except.noConfusion hout
  · rename_i heq
    simp only [Except.ok.injEq] at hout
    subst hout
    exact ⟨PreOut.early _, heq⟩
  · rename_i heq
    simp only [Except.ok.injEq] at hout
    subst hout
    exact ⟨PreOut.proceed _, heq⟩

theorem searchConf_shape (settings : SettingsModel) (t : String) (c : Confirmation)
    (hc : searchConf settings t = some c) : ∃ q, c = Confirmation.search q := by
  unfold searchConf at hc
  split at hc
  · cases hd : detectToolCall t with
    | some q =>
      rw [hd] at hc
      simp only [Option.some.injEq] at hc
      exact ⟨q, hc.symm⟩
    | none =>
      rw [hd] at hc
      exact Option.noConfusion hc
  · exact Option.noConfusion hc

theorem searchConf_of_detect (settings : SettingsModel) (t : String) (q : Option Json)
    (hws : settings.webSearchEnabled = true) (hd : detectToolCall t = some q) :
    searchConf settings t = some (Confirmation.search q) := by
  simp [searchConf, hws, hd]

theorem searchConf_none_of_detect (settings : SettingsModel) (t : String)
    (hd : detectToolCall t = none) : searchConf settings t = none := by
  unfold searchConf
  split
  · rw [hd]
  · rfl

theorem detect_of_parse (t sub : String) (j : Json)
    (he : extractBraces t = some sub) (hj : json_loads sub = some j)
    (hf : j.getField "tool_name" = some (Json.str "web_search")) :
    detectToolCall t = some (j.getField "query") := by
  simp [detectToolCall, he, hj, hf]

theorem detect_none_noparse (t : String) (he : extractBraces t = none) :
    detectToolCall t = none := by
  simp [detectToolCall, he]

theorem detect_none_badjson (t sub : String)
    (he : extractBraces t = some sub) (hj : json_loads sub = none) :
    detectToolCall t = none := by
  simp [detectToolCall, he, hj]

/- Exhaustive description of the confirmation the try block can
   produce: none, a search confirmation found by the detector (in
   which case the summarizer never ran), or a memory confirmation
   whose summary is exactly the summarizer's answer, non-blank, and
   free of the discard phrase. -/
theorem tryBlock_cases (h : List Msg) (settings : SettingsModel) (env : Env) :
    (tryBlock h settings env).1.confirmation = none ∨
    ((∃ q, (tryBlock h settings env).1.confirmation = some (Confirmation.search q)) ∧
      (tryBlock h settings env).2 = 0) ∨
    (∃ s, (tryBlock h settings env).1.confirmation = some (Confirmation.memory s) ∧
      env.summaryResponse = Except.ok s ∧ s ≠ "" ∧
      pyIn "no new key information" (pyLower s) = false) := by
  cases hl : env.llmResponse with
  | error e => exact Or.inl (by rw [tryBlock_llm_error h settings env hl])
  | ok t =>
    cases hc : searchConf settings t with
    | some c =>
      obtain ⟨q, rfl⟩ := searchConf_shape settings t c hc
      refine Or.inr (Or.inl ⟨⟨q, ?_⟩, ?_⟩)
      · rw [tryBlock_search h settings env t _ hl hc]
      · rw [tryBlock_search h settings env t _ hl hc]
    | none =>
      cases hsm : env.summaryResponse with
      | error e => exact Or.inl (by rw [tryBlock_sum_error h settings env t hl hc hsm])
      | ok s =>
        by_cases hg : s ≠ "" ∧ pyIn "no new key information" (pyLower s) = false
        · exact Or.inr (Or.inr ⟨s,
            by rw [tryBlock_memory h settings env t s hl hc hsm hg], rfl, hg.1, hg.2⟩)
        · exact Or.inl (by rw [tryBlock_no_memory h settings env t s hl hc hsm hg])

/- Early returns of the endpoint carry no confirmation field. -/
theorem preTry_early_conf (req : ChatRequest) (store : MemStore) (env : Env)
    (resp : ChatResponse) (st : MemStore) (sr : List (Option String))
    (hp : preTry req store env = Except.ok (PreOut.early resp, st, sr)) :
    resp.confirmation = none := by
  cases hc : req.continuation with
  | none =>
    simp only [preTry, hc, freshStep] at hp
    split at hp
    · exact Except.noConfusion hp
    · split at hp
      · exact Except.noConfusion hp
      · split at hp
        · exact Except.noConfusion hp
        · simp only [Except.ok.injEq, Prod.mk.injEq] at hp
          exact PreOut.noConfusion hp.1
  | some c =>
    simp only [preTry, hc, contStep] at hp
    split at hp
    · simp only [Except.ok.injEq, Prod.mk.injEq] at hp
      exact PreOut.noConfusion hp.1
    · split at hp
      · simp only [Except.ok.injEq, Prod.mk.injEq] at hp
        exact PreOut.noConfusion hp.1
      · split at hp
        · split at hp
          · exact Except.noConfusion hp
          · simp only [Except.ok.injEq, Prod.mk.injEq] at hp
            obtain ⟨h1, -, -⟩ := hp
            have h2 : ChatResponse.mk req.history none = resp := PreOut.early.inj h1
            rw [← h2]
        · split at hp
          · simp only [Except.ok.injEq, Prod.mk.injEq] at hp
            obtain ⟨h1, -, -⟩ := hp
            have h2 : ChatResponse.mk req.history none = resp := PreOut.early.inj h1
            rw [← h2]
          · simp only [Except.ok.injEq, Prod.mk.injEq] at hp
            exact PreOut.noConfusion hp.1

/- The endpoint's confirmation is the early none or the try block's. -/
theorem chat_endpoint_conf (req : ChatRequest) (store : MemStore) (env : Env)
    (out : TurnOutput) (hout : chat_endpoint req store env = Except.ok out) :
    out.response.confirmation = none ∨
    (∃ h, preTry req store env = Except.ok (PreOut.proceed h, out.store, out.searches) ∧
      out.response = (tryBlock h (reqSettings req) env).1 ∧
      out.summaryCalls = (tryBlock h (reqSettings req) env).2) := by
  unfold chat_endpoint at hout
  split at hout
  · exact Except.noConfusion hout
  · rename_i resp st sr heq
    simp only [Except.ok.injEq] at hout
    subst hout
    exact Or.inl (preTry_early_conf req store env resp st sr heq)
  · rename_i h st sr heq
    simp only [Except.ok.injEq] at hout
    subst hout
    exact Or.inr ⟨h, heq, rfl, rfl⟩

theorem save_memory_some_ok (s : String) (store : MemStore) (env : Env) :
    ∃ store2, save_memory (some s) store env = Except.ok store2 := by
  by_cases hcond : pyStrip s = "" ∨ pyIn "no new key information" (pyLower s) = true
  · exact ⟨store, by simp only [save_memory]; rw [if_pos hcond]⟩
  · exact ⟨store ++ [⟨env.nowTimestamp, s, env.embed s⟩],
      by simp only [save_memory]; rw [if_neg hcond]⟩

theorem lookupPersona_ok (personas : List Persona) (pid : Option String)
    (h : personas ≠ []) : ∃ p, lookupPersona personas pid = Except.ok p := by
  unfold lookupPersona
  cases hf : personas.find? (fun p => pid == some p.id) with
  | some p => exact ⟨p, rfl⟩
  | none =>
    cases personas with
    | nil => exact absurd rfl h
    | cons a l => exact ⟨a, rfl⟩

theorem getLast_cons_ex (a : Msg) (t : List Msg) : ∃ m, (a :: t).getLast? = some m := by
  induction t generalizing a with
  | nil => exact ⟨a, rfl⟩
  | cons b t ih =>
    obtain ⟨m, hm⟩ := ih b
    exact ⟨m, by rw [List.getLast?_cons_cons]; exact hm⟩

theorem filter_tool_user_nil (tail : List Msg)
    (h : ∀ m ∈ tail, m.role = "assistant") :
    tail.filter (fun m => m.role == "tool" || m.role == "user") = [] := by
  induction tail with
  | nil => rfl
  | cons a l ih =>
    have ha := h a (List.mem_cons_self a l)
    have hl := ih fun m hm => h m (List.mem_cons_of_mem a hm)
    rw [List.filter_cons, ha, if_neg (by decide)]
    exact hl

/-- Claim C1: for every request the turn entry point processes to
completion, a web search runs only when the request carries a
continuation whose action is approved_search, an insertion into the
vector memory store happens only when it carries a continuation whose
action is save_memory, and on a fresh turn (no continuation) the
search log is empty and the store is unchanged, whatever the model
answered. -/
theorem effects_require_continuation (req : ChatRequest) (store : MemStore)
    (env : Env) (out : TurnOutput)
    (hout : chat_endpoint req store env = Except.ok out) :
    (out.searches ≠ [] →
      ∃ c, req.continuation = some c ∧ c.action = some "approved_search") ∧
    (out.store ≠ store →
      ∃ c, req.continuation = some c ∧ c.action = some "save_memory") ∧
    (req.continuation = none → out.searches = [] ∧ out.store = store) := by
  obtain ⟨po, hp⟩ := chat_endpoint_effects req store env out hout
  obtain ⟨h1, h2, h3⟩ := preTry_frame req store env po out.store out.searches hp
  refine ⟨?_, ?_, h3⟩
  · intro hne
    rcases h1 with h | h
    · exact absurd h hne
    · exact h
  · intro hne
    rcases h2 with h | h
    · exact absurd h hne
    · exact h

/-- Witness for C1 at a concrete fresh turn: no search ran and the
store is untouched. -/
theorem effects_require_continuation_witness :
    reqFresh.continuation = none ∧ outFresh.searches = [] ∧ outFresh.store = [] := by
  have h := effects_require_continuation reqFresh [] sampleEnv outFresh (by rfl)
  exact ⟨rfl, h.2.2 rfl⟩

/-- Claim C8: when the primary completion call raises, the endpoint
does not propagate the fault; it returns normally with exactly one
generic apologetic assistant message appended to the history prepared
for the completion call, and no confirmation. -/
theorem llm_failure_apology (req : ChatRequest) (store : MemStore) (env : Env)
    (h : List Msg) (st : MemStore) (sr : List (Option String))
    (hpre : preTry req store env = Except.ok (PreOut.proceed h, st, sr))
    (hllm : env.llmResponse = Except.error ()) :
    chat_endpoint req store env =
      Except.ok ⟨⟨h ++ [apologyMsg], none⟩, st, sr, 1, 0⟩ := by
  rw [chat_endpoint_proceed req store env h st sr hpre,
    tryBlock_llm_error h (reqSettings req) env hllm]

/-- Witness for C8: a concrete fresh turn whose completion call
raises yields the apologetic message. -/
theorem llm_failure_apology_witness :
    chat_endpoint reqFresh [] envLlmFail =
      Except.ok ⟨⟨histFresh ++ [apologyMsg], none⟩, [], [], 1, 0⟩ :=
  llm_failure_apology reqFresh [] envLlmFail histFresh [] [] (by rfl) (by rfl)

/-- Claim C9: on an empty memory store the retrieval helper that
produces the assembled context's memory section returns the empty
string for every user message, so no PAST MEMORIES header is ever
emitted. -/
theorem empty_store_memory_section (p : String) (env : Env) :
    get_relevant_memories p [] env = Except.ok "" ∧
    pyIn "--- PAST MEMORIES ---" "" = false :=
  ⟨rfl, rfl⟩

/-- Claim C10 (amended): a request whose continuation action is
dont_save_memory, or save_memory with a summary string present,
returns the input history exactly unchanged with no confirmation, no
search, and no language-model or summarizer call.  (Amendment: a
save_memory continuation lacking a summary raises instead of
returning, see the counterexample.) -/
theorem early_return_frame (req : ChatRequest) (store : MemStore) (env : Env)
    (c : Continuation) (hc : req.continuation = some c)
    (ha : c.action = some "dont_save_memory" ∨
      (c.action = some "save_memory" ∧ c.summary ≠ none)) :
    (chat_endpoint req store env).map
      (fun o => (o.response.history, o.response.confirmation, o.searches,
        o.llmCalls, o.summaryCalls)) =
      Except.ok (req.history, none, [], 0, 0) := by
  rcases ha with ha | ⟨ha, hs⟩
  · rw [chat_endpoint_early req store env ⟨req.history, none⟩ store []
      (preTry_dont_save req store env c hc ha)]
    rfl
  · obtain ⟨s, hsome⟩ := Option.ne_none_iff_exists'.mp hs
    obtain ⟨store2, hsv⟩ := save_memory_some_ok s store env
    have hsv2 : save_memory c.summary store env = Except.ok store2 := by
      rw [hsome]
      exact hsv
    rw [chat_endpoint_early req store env ⟨req.history, none⟩ store2 []
      (preTry_save req store env c store2 hc ha hsv2)]
    rfl

/-- Witness for C10 at a concrete dont_save_memory request. -/
theorem early_return_frame_witness :
    (chat_endpoint reqDont [] sampleEnv).map
      (fun o => (o.response.history, o.response.confirmation, o.searches,
        o.llmCalls, o.summaryCalls)) =
      Except.ok (reqDont.history, none, [], 0, 0) :=
  early_return_frame reqDont [] sampleEnv contDont rfl (Or.inl rfl)

/-- Counterexample for C10 as stated: a save_memory continuation with
no summary key makes the endpoint raise (None.strip() in Python), so
the entry point does not return the history unchanged. -/
theorem early_return_counterexample :
    contSaveNoSummary.action = some "save_memory" ∧
    chat_endpoint reqSaveNoSummary [] sampleEnv = Except.error () :=
  ⟨rfl, rfl⟩

/-- Claim C4: on a fresh turn the endpoint's result carries at most
one pending confirmation: none, a search confirmation, or a memory
confirmation, never both a search and a memory confirmation in the
same response; moreover when a search confirmation is present the
memory summarizer was never consulted. -/
theorem at_most_one_confirmation (req : ChatRequest) (store : MemStore) (env : Env)
    (out : TurnOutput) (_hfresh : req.continuation = none)
    (hout : chat_endpoint req store env = Except.ok out) :
    (out.response.confirmation = none ∨
      (∃ q, out.response.confirmation = some (Confirmation.search q)) ∨
      (∃ s, out.response.confirmation = some (Confirmation.memory s))) ∧
    (∀ q, out.response.confirmation = some (Confirmation.search q) →
      out.summaryCalls = 0) ∧
    ¬∃ q s, out.response.confirmation = some (Confirmation.search q) ∧
      out.response.confirmation = some (Confirmation.memory s) := by
  have hboth : ¬∃ q s, out.response.confirmation = some (Confirmation.search q) ∧
      out.response.confirmation = some (Confirmation.memory s) := by
    rintro ⟨q, s, h1, h2⟩
    rw [h1] at h2
    simp only [Option.some.injEq] at h2
    exact Confirmation.noConfusion h2
  rcases chat_endpoint_conf req store env out hout with hnone | ⟨h, hp, hresp, hsum⟩
  · refine ⟨Or.inl hnone, ?_, hboth⟩
    intro q hq
    rw [hnone] at hq
    exact Option.noConfusion hq
  · rcases tryBlock_cases h (reqSettings req) env with h0 | ⟨⟨q, hq⟩, h2⟩ | ⟨s, hs, -, -, -⟩
    · refine ⟨Or.inl (by rw [hresp]; exact h0), ?_, hboth⟩
      intro q hq
      rw [hresp, h0] at hq
      exact Option.noConfusion hq
    · refine ⟨Or.inr (Or.inl ⟨q, by rw [hresp]; exact hq⟩), ?_, hboth⟩
      intro q2 hq2
      rw [hsum]
      exact h2
    · refine ⟨Or.inr (Or.inr ⟨s, by rw [hresp]; exact hs⟩), ?_, hboth⟩
      intro q2 hq2
      rw [hresp, hs] at hq2
      simp only [Option.some.injEq] at hq2
      exact Confirmation.noConfusion hq2

/-- Witness for C4: the concrete fresh sample turn yields one of the
three admissible confirmation shapes. -/
theorem at_most_one_confirmation_witness :
    outFresh.response.confirmation = none ∨
    (∃ q, outFresh.response.confirmation = some (Confirmation.search q)) ∨
    (∃ s, outFresh.response.confirmation = some (Confirmation.memory s)) :=
  (at_most_one_confirmation reqFresh [] sampleEnv outFresh rfl (by rfl)).1

/-- Claim C5: when the summarizer's answer contains (lower-cased) the
phrase "no new key information", the turn emits no pending memory
confirmation, and saving that summary never inserts it into the
vector store. -/
theorem no_new_info_discarded (req : ChatRequest) (store : MemStore) (env : Env)
    (s : String) (out : TurnOutput)
    (hs : env.summaryResponse = Except.ok s)
    (hph : pyIn "no new key information" (pyLower s) = true)
    (hout : chat_endpoint req store env = Except.ok out) :
    (∀ t, out.response.confirmation ≠ some (Confirmation.memory t)) ∧
    (∀ store2, save_memory (some s) store2 env = Except.ok store2) := by
  constructor
  · rcases chat_endpoint_conf req store env out hout with hnone | ⟨h, hp, hresp, -⟩
    · intro t ht
      rw [hnone] at ht
      exact Option.noConfusion ht
    · rcases tryBlock_cases h (reqSettings req) env with h0 | ⟨⟨q, hq⟩, -⟩ | ⟨s2, hs2, hsum2, -, hph2⟩
      · intro t ht
        rw [hresp, h0] at ht
        exact Option.noConfusion ht
      · intro t ht
        rw [hresp, hq] at ht
        simp only [Option.some.injEq] at ht
        exact Confirmation.noConfusion ht
      · have hss : s = s2 := by
          have := hs.symm.trans hsum2
          simp only [Except.ok.injEq] at this
          exact this
        rw [← hss, hph] at hph2
        exact Bool.noConfusion hph2
  · intro store2
    simp only [save_memory]
    rw [if_pos (Or.inr hph)]

/-- Witness for C5: a concrete turn whose summarizer answers the
discard phrase has no memory confirmation, and the phrase-bearing
summary is not inserted by save_memory. -/
theorem no_new_info_discarded_witness :
    outNoInfo.response.confirmation ≠ some (Confirmation.memory "x") ∧
    save_memory (some "No new key information.") [] envNoInfo = Except.ok [] := by
  have h := no_new_info_discarded reqFresh [] envNoInfo "No new key information."
    outNoInfo (by rfl) (by rfl) (by rfl)
  exact ⟨h.1 "x", h.2 []⟩

/-- Claim C6: a save_memory continuation with a non-blank summary not
containing the discard phrase appends exactly one record to the
vector store, under the time-derived identifier of the environment's
clock, and every pre-existing record is still present unmodified. -/
theorem memory_insert_fresh_id (req : ChatRequest) (store : MemStore) (env : Env)
    (c : Continuation) (s : String) (out : TurnOutput)
    (hc : req.continuation = some c) (ha : c.action = some "save_memory")
    (hsum : c.summary = some s)
    (hne : pyStrip s ≠ "")
    (hph : pyIn "no new key information" (pyLower s) = false)
    (hout : chat_endpoint req store env = Except.ok out) :
    out.store = store ++ [⟨env.nowTimestamp, s, env.embed s⟩] ∧
    ∀ r ∈ store, r ∈ out.store := by
  have hcond : ¬(pyStrip s = "" ∨ pyIn "no new key information" (pyLower s) = true) := by
    rintro (h | h)
    · exact hne h
    · rw [hph] at h
      exact Bool.noConfusion h
  have hsv : save_memory c.summary store env =
      Except.ok (store ++ [⟨env.nowTimestamp, s, env.embed s⟩]) := by
    rw [hsum]
    simp only [save_memory]
    rw [if_neg hcond]
  have hend := chat_endpoint_early req store env ⟨req.history, none⟩
    (store ++ [⟨env.nowTimestamp, s, env.embed s⟩]) []
    (preTry_save req store env c (store ++ [⟨env.nowTimestamp, s, env.embed s⟩]) hc ha hsv)
  rw [hend] at hout
  simp only [Except.ok.injEq] at hout
  subst hout
  exact ⟨rfl, fun r hr => List.mem_append_left _ hr⟩

/-- Witness for C6 at a concrete save_memory request. -/
theorem memory_insert_fresh_id_witness :
    outSave.store =
      [] ++ [⟨sampleEnv.nowTimestamp, "A fact", sampleEnv.embed "A fact"⟩] :=
  (memory_insert_fresh_id reqSave [] sampleEnv contSave "A fact" outSave rfl rfl rfl
    (by decide) (by rfl) (by rfl)).1

/-- Claim C7 (amended): when the memory retrieval query returns no
documents, the assembler substitutes the empty memory block and the
fresh turn completes normally.  (Amendment: the code degrades
gracefully only when the query returns an empty or falsy result; a
query that raises propagates and fails the whole turn, see the
counterexample.) -/
theorem memory_block_degrades (req : ChatRequest) (store : MemStore) (env : Env)
    (hc : req.continuation = none)
    (hq : env.queryOutcome = Except.ok [])
    (hh : req.history ≠ [])
    (hpers : env.personas ≠ []) :
    (∀ p, get_relevant_memories p store env = Except.ok "") ∧
    isOkE (chat_endpoint req store env) = true := by
  have hmem : ∀ p, get_relevant_memories p store env = Except.ok "" := by
    intro p
    unfold get_relevant_memories
    split
    · rfl
    · rw [hq]
      rfl
  refine ⟨hmem, ?_⟩
  cases hhist : req.history with
  | nil => exact absurd hhist hh
  | cons a t =>
    obtain ⟨m, hm⟩ := getLast_cons_ex a t
    obtain ⟨p, hp⟩ := lookupPersona_ok env.personas req.persona_id hpers
    have hlast : req.history.getLast? = some m := by rw [hhist]; exact hm
    have hpre := preTry_fresh req store env m p "" hc hlast hp (hmem m.content)
    rw [chat_endpoint_proceed req store env _ store [] hpre]
    rfl

/-- Witness for C7 at a concrete fresh turn over the empty store. -/
theorem memory_block_degrades_witness :
    get_relevant_memories "hi" [] sampleEnv = Except.ok "" ∧
    isOkE (chat_endpoint reqFresh [] sampleEnv) = true := by
  have h := memory_block_degrades reqFresh [] sampleEnv rfl rfl (by decide) (by decide)
  exact ⟨h.1 "hi", h.2⟩

/-- Counterexample for C7 as stated: with a non-empty store and a
memory query that raises, the whole turn raises instead of degrading
to an empty memory block, because the retrieval sits outside the
endpoint's try block. -/
theorem memory_failure_counterexample :
    envQueryFail.queryOutcome = Except.error () ∧
    chat_endpoint reqFresh storeOne envQueryFail = Except.error () :=
  ⟨rfl, rfl⟩

/- A proceed-turn that appended one tool/user message before the
   completion call yields a history whose appended tool/user messages
   are exactly that message. -/
theorem proceed_filter (req : ChatRequest) (store : MemStore) (env : Env)
    (msg : Msg) (st : MemStore) (sr : List (Option String)) (out : TurnOutput)
    (hrole : (msg.role == "tool" || msg.role == "user") = true)
    (hpre : preTry req store env = Except.ok (PreOut.proceed (req.history ++ [msg]), st, sr))
    (hout : chat_endpoint req store env = Except.ok out) :
    (out.response.history.drop req.history.length).filter
      (fun m => m.role == "tool" || m.role == "user") = [msg] ∧
    out.searches = sr := by
  have hend := chat_endpoint_proceed req store env _ st sr hpre
  rw [hend] at hout
  simp only [Except.ok.injEq] at hout
  obtain ⟨tail, htl, hroles⟩ :=
    tryBlock_appended (req.history ++ [msg]) (reqSettings req) env
  have hh2 : out.response.history = (req.history ++ [msg]) ++ tail := by
    rw [← hout]
    exact htl
  have hsr : out.searches = sr := by rw [← hout]
  refine ⟨?_, hsr⟩
  rw [hh2, List.append_assoc, List.drop_left, List.singleton_append,
    List.filter_cons, if_pos hrole, filter_tool_user_nil tail hroles]

/-- Claim C3: an approved_search continuation makes the returned
history contain exactly one appended tool/user message, the tool
message whose content embeds the literal search results, and records
that one search ran; a denied_search continuation appends exactly one
tool/user message, the fixed denial text, and no search ran. -/
theorem confirmation_round_trip (req : ChatRequest) (store : MemStore) (env : Env)
    (c : Continuation) (out : TurnOutput)
    (hc : req.continuation = some c)
    (hout : chat_endpoint req store env = Except.ok out) :
    (c.action = some "approved_search" →
      (out.response.history.drop req.history.length).filter
        (fun m => m.role == "tool" || m.role == "user") =
        [⟨"tool", searchResultsPre ++
          web_search c.query (reqSettings req).provider env ++ searchResultsPost⟩] ∧
      out.searches = [c.query]) ∧
    (c.action = some "denied_search" →
      (out.response.history.drop req.history.length).filter
        (fun m => m.role == "tool" || m.role == "user") =
        [⟨"user", deniedSearchText⟩] ∧
      out.searches = []) := by
  constructor
  · intro ha
    exact proceed_filter req store env _ store [c.query] out (by rfl)
      (preTry_approved req store env c hc ha) hout
  · intro ha
    exact proceed_filter req store env _ store [] out (by rfl)
      (preTry_denied req store env c hc ha) hout

/-- Witness for C3 at a concrete approved_search continuation. -/
theorem confirmation_round_trip_witness :
    (outApproved.response.history.drop reqApproved.history.length).filter
      (fun m => m.role == "tool" || m.role == "user") =
      [⟨"tool", searchResultsPre ++
        web_search contApproved.query (reqSettings reqApproved).provider sampleEnv ++
        searchResultsPost⟩] ∧
    outApproved.searches = [contApproved.query] :=
  (confirmation_round_trip reqApproved [] sampleEnv contApproved outApproved
    rfl (by rfl)).1 rfl

/-- Claim C2 (amended): provided web search is enabled in the request
settings (the default) and a completion text was produced, a
brace-delimited substring that json-parses with tool_name
"web_search" makes the turn result carry a search confirmation whose
query is the parsed object's query field; with no brace-delimited
substring, or an unparsable one, no search confirmation is emitted
and the completion text stands in the history as the final answer.
(Amendment: with webSearchEnabled false the detector is skipped
entirely, see the counterexample.) -/
theorem tool_call_detection (req : ChatRequest) (store : MemStore) (env : Env)
    (h : List Msg) (st : MemStore) (sr : List (Option String)) (t : String)
    (out : TurnOutput)
    (hpre : preTry req store env = Except.ok (PreOut.proceed h, st, sr))
    (hws : (reqSettings req).webSearchEnabled = true)
    (hllm : env.llmResponse = Except.ok t)
    (hout : chat_endpoint req store env = Except.ok out) :
    (∀ sub j, extractBraces t = some sub → json_loads sub = some j →
      j.getField "tool_name" = some (Json.str "web_search") →
      out.response.confirmation = some (Confirmation.search (j.getField "query"))) ∧
    ((extractBraces t = none ∨
        ∃ sub, extractBraces t = some sub ∧ json_loads sub = none) →
      (∀ q, out.response.confirmation ≠ some (Confirmation.search q)) ∧
      Msg.mk "assistant" t ∈ out.response.history) := by
  have hend := chat_endpoint_proceed req store env h st sr hpre
  rw [hend] at hout
  simp only [Except.ok.injEq] at hout
  constructor
  · intro sub j he hj hf
    have hsc := searchConf_of_detect (reqSettings req) t (j.getField "query") hws
      (detect_of_parse t sub j he hj hf)
    have : out.response.confirmation =
        (tryBlock h (reqSettings req) env).1.confirmation := by
      rw [← hout]
    rw [this, tryBlock_search h (reqSettings req) env t _ hllm hsc]
  · intro hcase
    have hd : detectToolCall t = none := by
      rcases hcase with h1 | ⟨sub, he, hj⟩
      · exact detect_none_noparse t h1
      · exact detect_none_badjson t sub he hj
    have hsc := searchConf_none_of_detect (reqSettings req) t hd
    have hconf : out.response.confirmation =
        (tryBlock h (reqSettings req) env).1.confirmation := by
      rw [← hout]
    have hhist : out.response.history =
        (tryBlock h (reqSettings req) env).1.history := by
      rw [← hout]
    cases hsm : env.summaryResponse with
    | error e =>
      rw [tryBlock_sum_error h (reqSettings req) env t hllm hsc hsm] at hconf hhist
      refine ⟨?_, ?_⟩
      · intro q hq
        rw [hconf] at hq
        exact Option.noConfusion hq
      · rw [hhist]
        simp
    | ok s =>
      by_cases hg : s ≠ "" ∧ pyIn "no new key information" (pyLower s) = false
      · rw [tryBlock_memory h (reqSettings req) env t s hllm hsc hsm hg] at hconf hhist
        refine ⟨?_, ?_⟩
        · intro q hq
          rw [hconf] at hq
          simp only [Option.some.injEq] at hq
          exact Confirmation.noConfusion hq
        · rw [hhist]
          simp
      · rw [tryBlock_no_memory h (reqSettings req) env t s hllm hsc hsm hg] at hconf hhist
        refine ⟨?_, ?_⟩
        · intro q hq
          rw [hconf] at hq
          exact Option.noConfusion hq
        · rw [hhist]
          simp

/-- Witness for C2: one concrete turn whose completion text is
exactly the tool-call JSON yields a search confirmation carrying its
query field, and one whose query field is the json.loads constant NaN
likewise yields a search confirmation carrying that parsed value. -/
theorem tool_call_detection_witness :
    outTool.response.confirmation =
      some (Confirmation.search (toolJson.getField "query")) ∧
    outToolNaN.response.confirmation =
      some (Confirmation.search (some (Json.num "NaN"))) := by
  have h := tool_call_detection reqFresh [] envTool histFresh [] [] toolText
    outTool (by rfl) (by rfl) (by rfl) (by rfl)
  have h2 := tool_call_detection reqFresh [] envToolNaN histFresh [] [] toolTextNaN
    outToolNaN (by rfl) (by rfl) (by rfl) (by rfl)
  exact ⟨h.1 toolText toolJson (by rfl) (by rfl) (by rfl),
    h2.1 toolTextNaN toolJsonNaN (by rfl) (by rfl) (by rfl)⟩

/-- Counterexample for C2 as stated: with webSearchEnabled false in
the request settings, the same tool-call completion text (which
extracts and parses with tool_name "web_search") produces no search
confirmation at all. -/
theorem tool_call_detection_counterexample :
    extractBraces toolText = some toolText ∧
    json_loads toolText = some toolJson ∧
    toolJson.getField "tool_name" = some (Json.str "web_search") ∧
    (chat_endpoint reqNoWS [] envToolNoMem).map
      (fun o => o.response.confirmation) = Except.ok none :=
  ⟨rfl, rfl, rfl, rfl⟩
